import Mathlib

/-!
Verification of the todo-mvc-service persistence helper (src/python/store.py).

The source module holds one fixed file name and two operations:

  file_name = "todo.json"

  def save(todo_list):
      with open(file_name, 'w') as f:
          json.dump(todo_list, f)

  def fetch():
      try:
          with open(file_name, 'r') as f:
              todo_list = json.load(f)
              return todo_list
      except Exception as ee:
          print(ee)
      return []

We shallowly embed the module over an explicit filesystem state.  JSON
documents are modelled by the inductive `JValue`; a file on disk is
`absent`, holds a valid JSON document, or holds text that fails to parse
(`corrupt`).  Opening a file for writing truncates it first (after
truncation and before a complete dump the on-disk text is not valid JSON,
so that intermediate state is `corrupt`); opening for reading leaves the
filesystem untouched.  Python `with` blocks are modelled by an explicit
handle counter that every exit path of `save` decrements.  An input that
`json.dump` cannot serialize is modelled by `Item.unserializable`.
-/

namespace TodoStore

/-- A task record, per the docstring of `save`:
`item: {'id': int, 'content': str, 'status': str}`. -/
structure Task where
  id : Int
  content : String
  status : String
  deriving Repr, DecidableEq

/-- JSON documents, as produced by `json.dump` and consumed by `json.load`.
Task ids are Python ints, so numbers are modelled by `Int`. -/
inductive JValue where
  | null
  | bool (b : Bool)
  | num (n : Int)
  | str (s : String)
  | arr (xs : List JValue)
  | obj (fields : List (String × JValue))

/-- The state of one file on disk: missing, text that parses as JSON, or
text that `json.load` rejects (this includes a just-truncated empty file
and a half-written dump). -/
inductive FileContent where
  | absent
  | corrupt
  | json (v : JValue)

/-- The filesystem state threaded through `save` and `fetch`: the content
of every path, whether `open` in read / write mode is permitted, and a
ghost counter of write handles currently held (for the `with` guarantee). -/
structure FS where
  files : String → FileContent
  readAllowed : Bool
  writeAllowed : Bool
  openWriteHandles : Nat

/-- `file_name = "todo.json"` (src/python/store.py line 3). -/
def file_name : String := "todo.json"

/-- Failures of `open`. -/
inductive OpenErr where
  | permissionDenied
  | fileNotFound
  deriving Repr, DecidableEq

/-- Exceptions `save` can raise: a failed `open(file_name, 'w')`, or the
`TypeError` that `json.dump` raises on an unserializable input. -/
inductive SaveErr where
  | openFailed (e : OpenErr)
  | typeError
  deriving Repr, DecidableEq

/-- Replace the content of one path. -/
def setFile (fs : FS) (path : String) (c : FileContent) : FS :=
  { fs with files := fun p => if p = path then c else fs.files p }

/-- `open(path, 'w')`: fails when writing is not permitted; otherwise
truncates the file (the empty text is not valid JSON, hence `corrupt`)
and acquires a write handle. -/
def openWrite (path : String) (fs : FS) : Except OpenErr FS :=
  if fs.writeAllowed then
    .ok { setFile fs path .corrupt with openWriteHandles := fs.openWriteHandles + 1 }
  else
    .error .permissionDenied

/-- Leaving the `with` block of `save`: the write handle is released. -/
def closeWrite (fs : FS) : FS :=
  { fs with openWriteHandles := fs.openWriteHandles - 1 }

/-- `open(path, 'r')`: fails when reading is not permitted or the file is
missing; otherwise yields the file content and changes nothing on disk. -/
def openRead (path : String) (fs : FS) : Except OpenErr FileContent :=
  if fs.readAllowed then
    match fs.files path with
    | .absent => .error .fileNotFound
    | c => .ok c
  else
    .error .permissionDenied

/-- An element of the Python list handed to `save`: either a task dict or
a value `json.dump` cannot serialize. -/
inductive Item where
  | task (t : Task)
  | unserializable

/-- How `json.dump` renders one task dict: an object with the keys
`id`, `content`, `status`, in the insertion order of the docstring. -/
def encodeTask (t : Task) : JValue :=
  .obj [("id", .num t.id), ("content", .str t.content), ("status", .str t.status)]

/-- Serialization of one list element; `none` is the `TypeError` case. -/
def encodeItem : Item → Option JValue
  | .task t => some (encodeTask t)
  | .unserializable => none

/-- Serialization of the whole list, failing if any element fails. -/
def serializeItems : List Item → Option (List JValue)
  | [] => some []
  | i :: rest =>
    match encodeItem i, serializeItems rest with
    | some v, some vs => some (v :: vs)
    | _, _ => none

/-- The outcome of `save`: the exception it raises, if any, together with
the filesystem state it leaves behind. -/
structure SaveResult where
  outcome : Option SaveErr
  fs : FS

/-- `save(todo_list)` (src/python/store.py lines 6-12): open `file_name`
for writing (truncating), dump the list, and release the handle on every
exit path; failures are not caught.  When the dump fails the file has
already been truncated and holds at best an unfinished dump, so it is
left `corrupt`. -/
def save (todo_list : List Item) (fs : FS) : SaveResult :=
  match openWrite file_name fs with
  | .error e => ⟨some (.openFailed e), fs⟩
  | .ok fs1 =>
    match serializeItems todo_list with
    | some vs => ⟨none, closeWrite (setFile fs1 file_name (.json (.arr vs)))⟩
    | none => ⟨some .typeError, closeWrite fs1⟩

/-- The outcome of `fetch`: the value returned to the caller, whether a
diagnostic was printed, and the filesystem state after the call.  `fetch`
is total — it raises nothing — mirroring the `try/except Exception`. -/
structure FetchResult where
  value : JValue
  diagnostic : Bool
  fs : FS

/-- `fetch()` (src/python/store.py lines 15-22): open `file_name` for
reading and return whatever `json.load` parses; any exception from the
open or the parse is caught, printed, and replaced by `[]`. -/
def fetch (fs : FS) : FetchResult :=
  match openRead file_name fs with
  | .error _ => ⟨.arr [], true, fs⟩
  | .ok .corrupt => ⟨.arr [], true, fs⟩
  | .ok .absent => ⟨.arr [], true, fs⟩
  | .ok (.json v) => ⟨v, false, fs⟩

/-- Reconstruct a task record from its JSON encoding (used to state that
the round trip preserves content and order). -/
def decodeTask : JValue → Option Task
  | .obj [("id", .num i), ("content", .str c), ("status", .str s)] => some ⟨i, c, s⟩
  | _ => none

/-- Reconstruct a task list from a list of JSON values. -/
def decodeTaskList : List JValue → Option (List Task)
  | [] => some []
  | j :: rest =>
    match decodeTask j, decodeTaskList rest with
    | some t, some ts => some (t :: ts)
    | _, _ => none

/-- Does a JSON value have the task-record shape: an object with the
fields `id` (number), `content` (string), `status` (string)? -/
def isTaskShaped : JValue → Bool
  | .obj [(k1, .num _), (k2, .str _), (k3, .str _)] =>
    k1 == "id" && k2 == "content" && k3 == "status"
  | _ => false

/-! ### Helper lemmas -/

theorem serializeItems_map_task (l : List Task) :
    serializeItems (l.map Item.task) = some (l.map encodeTask) := by
  induction l with
  | nil => rfl
  | cons t rest ih => simp [serializeItems, encodeItem, ih]

theorem decodeTaskList_encode (l : List Task) :
    decodeTaskList (l.map encodeTask) = some l := by
  induction l with
  | nil => rfl
  | cons t rest ih => simp [decodeTaskList, decodeTask, encodeTask, ih]

theorem save_tasks_fs (l : List Task) (fs : FS) (hw : fs.writeAllowed = true) :
    (save (l.map Item.task) fs).fs =
      { fs with files := fun p => if p = file_name then .json (.arr (l.map encodeTask)) else fs.files p } := by
  simp only [save, openWrite, hw, if_true, serializeItems_map_task, closeWrite, setFile]
  congr 1
  funext p
  by_cases hp : p = file_name <;> simp [hp]

theorem save_preserves_perms (l : List Item) (fs : FS) :
    (save l fs).fs.readAllowed = fs.readAllowed ∧
    (save l fs).fs.writeAllowed = fs.writeAllowed := by
  unfold save openWrite
  by_cases hw : fs.writeAllowed = true
  · cases serializeItems l <;> simp [hw, closeWrite, setFile]
  · simp [hw]

/-! ### Concrete states used by witnesses and the counterexample -/

/-- A fresh filesystem: every path missing, reads and writes permitted. -/
def fs0 : FS := ⟨fun _ => .absent, true, true, 0⟩

/-- A filesystem whose backing file holds unparsable text. -/
def fsCorrupt : FS := ⟨fun p => if p = file_name then .corrupt else .absent, true, true, 0⟩

/-- A filesystem whose backing file holds the valid JSON document `{}` —
well-formed but not an array of task records. -/
def fsWrongShape : FS :=
  ⟨fun p => if p = file_name then .json (.obj []) else .absent, true, true, 0⟩

/-- The task of the spec scenario. -/
def buyMilk : Task := ⟨1, "buy milk", "open"⟩

/-! ### Claims -/

/-- C1: saving any ordered sequence of valid task records and then fetching
returns a sequence equal to the original in both content and order: `fetch`
yields exactly the JSON array of the records, and decoding that array
recovers the original list. -/
theorem c1_round_trip (l : List Task) (fs : FS)
    (hw : fs.writeAllowed = true) (hr : fs.readAllowed = true) :
    (fetch (save (l.map Item.task) fs).fs).value = JValue.arr (l.map encodeTask) ∧
    decodeTaskList (l.map encodeTask) = some l := by
  refine ⟨?_, decodeTaskList_encode l⟩
  rw [save_tasks_fs l fs hw]
  simp [fetch, openRead, hr]

/-- C1 witness: the spec scenario — save `[{id:1, content:"buy milk",
status:"open"}]` on a fresh filesystem, then fetch. -/
theorem c1_round_trip_witness :
    (fetch (save ([buyMilk].map Item.task) fs0).fs).value
      = JValue.arr ([buyMilk].map encodeTask) ∧
    decodeTaskList ([buyMilk].map encodeTask) = some [buyMilk] :=
  c1_round_trip [buyMilk] fs0 rfl rfl

/-- C2 counterexample: the claim says that content of the wrong shape (valid
JSON that is not an array of task records) makes `fetch` return an empty
sequence with a diagnostic.  On the file `{}` — valid JSON, wrong shape —
`fetch` returns the parsed object itself, not an empty sequence, and prints
no diagnostic, because `json.load` succeeds and nothing checks the shape. -/
theorem c2_counterexample :
    (fetch fsWrongShape).value = JValue.obj [] ∧
    (fetch fsWrongShape).value ≠ JValue.arr [] ∧
    (fetch fsWrongShape).diagnostic = false := by
  refine ⟨rfl, fun h => ?_, rfl⟩
  have : (fetch fsWrongShape).value = JValue.obj [] := rfl
  rw [this] at h
  exact JValue.noConfusion h

/-- C2 (amended): whenever the open or the parse actually fails — the read
is not permitted, the file is missing, or its content does not parse —
`fetch` catches the failure, emits a diagnostic, and returns the empty
sequence; `fetch` is total, so no failure reaches the caller.  (Content of
the wrong shape parses successfully and is returned as-is.) -/
theorem c2_error_fallback (fs : FS)
    (h : fs.readAllowed = false ∨ fs.files file_name = .absent ∨
      fs.files file_name = .corrupt) :
    (fetch fs).value = JValue.arr [] ∧ (fetch fs).diagnostic = true := by
  rcases h with h | h | h
  · simp [fetch, openRead, h]
  · by_cases hr : fs.readAllowed = true <;> simp [fetch, openRead, hr, h]
  · by_cases hr : fs.readAllowed = true <;> simp [fetch, openRead, hr, h]

/-- C2 witness: on a fresh filesystem (backing file missing) `fetch`
returns the empty array and prints a diagnostic. -/
theorem c2_error_fallback_witness :
    (fetch fs0).value = JValue.arr [] ∧ (fetch fs0).diagnostic = true :=
  c2_error_fallback fs0 (Or.inr (Or.inl rfl))

/-- C3: when the backing file does not exist (no save has ever occurred)
`fetch` returns the empty sequence; `fetch` is a total function, so no
fault is raised to the caller. -/
theorem c3_missing_file (fs : FS) (h : fs.files file_name = .absent) :
    (fetch fs).value = JValue.arr [] := by
  by_cases hr : fs.readAllowed = true <;> simp [fetch, openRead, hr, h]

/-- C3 witness: fetching from the fresh filesystem returns the empty array. -/
theorem c3_missing_file_witness : (fetch fs0).value = JValue.arr [] :=
  c3_missing_file fs0 rfl

/-- C4: when the backing file holds invalid structured text (content that
fails to parse) `fetch` returns the empty sequence instead of propagating
the parse fault. -/
theorem c4_corrupt_file (fs : FS) (h : fs.files file_name = .corrupt) :
    (fetch fs).value = JValue.arr [] := by
  by_cases hr : fs.readAllowed = true <;> simp [fetch, openRead, hr, h]

/-- C4 witness: fetching from a filesystem whose backing file is corrupt
returns the empty array. -/
theorem c4_corrupt_file_witness : (fetch fsCorrupt).value = JValue.arr [] :=
  c4_corrupt_file fsCorrupt rfl

/-- C5: saving A and then saving B leaves the store holding only B — a
subsequent `fetch` returns exactly B, independently of A (the statement
does not mention A on the right-hand side: no append, no merge). -/
theorem c5_overwrite (A B : List Task) (fs : FS)
    (hw : fs.writeAllowed = true) (hr : fs.readAllowed = true) :
    (fetch (save (B.map Item.task) (save (A.map Item.task) fs).fs).fs).value
      = JValue.arr (B.map encodeTask) := by
  have hperm := save_preserves_perms (A.map Item.task) fs
  have hw1 : (save (A.map Item.task) fs).fs.writeAllowed = true := by
    rw [hperm.2]; exact hw
  have hr1 : (save (A.map Item.task) fs).fs.readAllowed = true := by
    rw [hperm.1]; exact hr
  rw [save_tasks_fs B _ hw1]
  simp [fetch, openRead, hr1]

/-- C5 witness: after saving `[{id:1,...}]` and then `[{id:2, content:
"walk dog", status:"done"}]`, fetch returns only the second list. -/
theorem c5_overwrite_witness :
    (fetch (save ([(⟨2, "walk dog", "done"⟩ : Task)].map Item.task)
        (save ([buyMilk].map Item.task) fs0).fs).fs).value
      = JValue.arr ([(⟨2, "walk dog", "done"⟩ : Task)].map encodeTask) :=
  c5_overwrite [buyMilk] [⟨2, "walk dog", "done"⟩] fs0 rfl rfl

/-- C6: `save` catches nothing — it raises no exception exactly when the
open for writing and the serialization both succeed; any write or
serialization failure surfaces to the caller as the corresponding error. -/
theorem c6_save_propagates (l : List Item) (fs : FS) :
    (save l fs).outcome = none ↔
      (fs.writeAllowed = true ∧ (serializeItems l).isSome = true) := by
  unfold save openWrite
  by_cases hw : fs.writeAllowed = true
  · cases serializeItems l <;> simp [hw]
  · simp [hw]

/-- C7: the store reads and writes the single file at the fixed relative
path `todo.json`: a successful save leaves that file holding the JSON
array of the records — each an object with the fields `id` (number),
`content` (string), `status` (string) — leaves every other path untouched,
and `fetch` depends only on that one file. -/
theorem c7_fixed_path_and_format (l : List Task) (fs : FS)
    (hw : fs.writeAllowed = true) :
    file_name = "todo.json" ∧
    (save (l.map Item.task) fs).fs.files file_name
      = .json (.arr (l.map encodeTask)) ∧
    (∀ p, p ≠ file_name → (save (l.map Item.task) fs).fs.files p = fs.files p) ∧
    (l.map encodeTask).all isTaskShaped = true ∧
    (∀ g : FS, g.readAllowed = fs.readAllowed →
      g.files file_name = fs.files file_name →
      (fetch g).value = (fetch fs).value) := by
  refine ⟨rfl, ?_, ?_, ?_, ?_⟩
  · rw [save_tasks_fs l fs hw]; simp
  · intro p hp
    rw [save_tasks_fs l fs hw]; simp [hp]
  · simp [isTaskShaped, encodeTask]
  · intro g hrg hfg
    unfold fetch openRead
    rw [hrg, hfg]
    by_cases hr2 : fs.readAllowed = true
    · cases h : fs.files file_name <;> simp [hr2, h]
    · simp [hr2]

/-- C7 witness: saving `[{id:1, content:"buy milk", status:"open"}]` on
the fresh filesystem. -/
theorem c7_fixed_path_and_format_witness :
    file_name = "todo.json" ∧
    (save ([buyMilk].map Item.task) fs0).fs.files file_name
      = .json (.arr ([buyMilk].map encodeTask)) ∧
    (∀ p, p ≠ file_name →
      (save ([buyMilk].map Item.task) fs0).fs.files p = fs0.files p) ∧
    ([buyMilk].map encodeTask).all isTaskShaped = true ∧
    (∀ g : FS, g.readAllowed = fs0.readAllowed →
      g.files file_name = fs0.files file_name →
      (fetch g).value = (fetch fs0).value) :=
  c7_fixed_path_and_format [buyMilk] fs0 rfl

/-- C8: on every exit path of `save` — open failure, serialization
failure, or normal completion — the number of held write handles is back
to what it was before the call: the scoped acquisition releases the
handle. -/
theorem c8_handle_released (l : List Item) (fs : FS) :
    (save l fs).fs.openWriteHandles = fs.openWriteHandles := by
  unfold save openWrite
  by_cases hw : fs.writeAllowed = true
  · cases serializeItems l <;> simp [hw, closeWrite, setFile]
  · simp [hw]

/-- C9: `save` is not atomic on error — saving a list with an
unserializable element over a previously saved nonempty list raises a
`TypeError` to the caller, yet the file has already been truncated: it is
left corrupt, a subsequent `fetch` returns the empty sequence, and the
previously saved list cannot be recovered. -/
theorem c9_not_atomic (prev : List Task) (fs : FS)
    (hw : fs.writeAllowed = true) (hr : fs.readAllowed = true)
    (hne : prev ≠ []) :
    (save [Item.unserializable] (save (prev.map Item.task) fs).fs).outcome
      = some SaveErr.typeError ∧
    (save [Item.unserializable] (save (prev.map Item.task) fs).fs).fs.files file_name
      = FileContent.corrupt ∧
    (fetch (save [Item.unserializable] (save (prev.map Item.task) fs).fs).fs).value
      = JValue.arr [] ∧
    (fetch (save [Item.unserializable] (save (prev.map Item.task) fs).fs).fs).value
      ≠ JValue.arr (prev.map encodeTask) := by
  have hperm := save_preserves_perms (prev.map Item.task) fs
  have hw1 : (save (prev.map Item.task) fs).fs.writeAllowed = true := by
    rw [hperm.2]; exact hw
  set fs1 := (save (prev.map Item.task) fs).fs with hfs1
  have houtcome : save [Item.unserializable] fs1
      = ⟨some SaveErr.typeError,
        closeWrite { setFile fs1 file_name .corrupt with
          openWriteHandles := fs1.openWriteHandles + 1 }⟩ := by
    simp [save, openWrite, hw1, serializeItems, encodeItem]
  have hfile : (save [Item.unserializable] fs1).fs.files file_name
      = FileContent.corrupt := by
    rw [houtcome]; simp [closeWrite, setFile]
  have hperm2 := save_preserves_perms [Item.unserializable] fs1
  have hr2 : (save [Item.unserializable] fs1).fs.readAllowed = true := by
    rw [hperm2.1, hperm.1]; exact hr
  have hfetch : (fetch (save [Item.unserializable] fs1).fs).value
      = JValue.arr [] :=
    c4_corrupt_file _ hfile
  refine ⟨by rw [houtcome], hfile, hfetch, ?_⟩
  rw [hfetch]
  intro h
  have hmap : prev.map encodeTask = [] := (JValue.arr.injEq _ _).mp h.symm
  exact hne (List.map_eq_nil_iff.mp hmap)

/-- C9 witness: saving `[unserializable]` after saving the buy-milk list
on the fresh filesystem. -/
theorem c9_not_atomic_witness :
    (save [Item.unserializable] (save ([buyMilk].map Item.task) fs0).fs).outcome
      = some SaveErr.typeError ∧
    (save [Item.unserializable] (save ([buyMilk].map Item.task) fs0).fs).fs.files file_name
      = FileContent.corrupt ∧
    (fetch (save [Item.unserializable] (save ([buyMilk].map Item.task) fs0).fs).fs).value
      = JValue.arr [] ∧
    (fetch (save [Item.unserializable] (save ([buyMilk].map Item.task) fs0).fs).fs).value
      ≠ JValue.arr ([buyMilk].map encodeTask) :=
  c9_not_atomic [buyMilk] fs0 rfl rfl (by simp)

/-- C10: `fetch` never modifies the filesystem — the state after the call,
whether it returned parsed content or the empty fallback, is exactly the
state before it (the file is opened only in read mode, which truncates
nothing). -/
theorem c10_fetch_pure (fs : FS) : (fetch fs).fs = fs := by
  unfold fetch openRead
  by_cases hr : fs.readAllowed = true
  · cases h : fs.files file_name <;> simp [hr, h]
  · simp [hr]

end TodoStore
